import Mathlib

/-!
Shallow embedding of the moderation bot in src/src/main.rs.

The program has three effectful collaborators that are external libraries:
the mistralrs model runtime (the chat request), the serenity gateway (the
send of the report message), and the unicode_segmentation crate (grapheme
segmentation).  They are modelled as explicit oracle parameters: the model
is a function from the built request to an error-or-response, the send
operation is a function from channel and embed to an error-or-unit, and
grapheme segmentation is a function from strings to cluster lists.  Wall
clock readings (std::time::Instant) appear only formatted into strings, so
they are passed in as already formatted strings.  Logging (the tracing
crate) is modelled by returning the list of emitted log entries.  All
functions are total, mirroring the fact that every Rust code path returns
normally.
-/

namespace LlmMod

/-- JSON values as handled by the serde_json library: null, booleans,
numbers (kept as their validated lexeme, since the program never reads a
numeric value), strings, arrays, and objects as ordered field lists. -/
inductive Json where
| null : Json
| bool (b : Bool) : Json
| num (lexeme : String) : Json
| str (s : String) : Json
| arr (items : List Json) : Json
| obj (fields : List (String × Json)) : Json

/-- JSON insignificant whitespace: space, tab, line feed, carriage return. -/
def jsonWs (c : Char) : Bool :=
c = ' ' || c = '\t' || c = '\n' || c = '\r'

/-- Drop leading JSON whitespace. -/
def skipWs : List Char → List Char
| c :: rest => if jsonWs c then skipWs rest else c :: rest
| [] => []

/-- Value of one hexadecimal digit, if the character is one. -/
def hexDigitVal (c : Char) : Option Nat :=
if '0' ≤ c ∧ c ≤ '9' then some (c.toNat - '0'.toNat)
else if 'a' ≤ c ∧ c ≤ 'f' then some (c.toNat - 'a'.toNat + 10)
else if 'A' ≤ c ∧ c ≤ 'F' then some (c.toNat - 'A'.toNat + 10)
else none

/-- Read exactly four hexadecimal digits, as in a JSON \u escape. -/
def parseHex4 : List Char → Option (Nat × List Char)
| a :: b :: c :: d :: rest =>
  match hexDigitVal a, hexDigitVal b, hexDigitVal c, hexDigitVal d with
  | some va, some vb, some vc, some vd =>
    some (va * 4096 + vb * 256 + vc * 16 + vd, rest)
  | _, _, _, _ => none
| _ => none

/-- Body of a JSON string literal, after the opening quote: handles the
escape sequences of RFC 8259 including surrogate pairs, rejects lone
surrogates and unescaped control characters, as serde_json does. -/
def parseStringBody : Nat → List Char → List Char → Option (String × List Char)
| 0, _, _ => none
| _, _, [] => none
| fuel + 1, acc, c :: rest =>
  if c = '"' then some (String.mk acc.reverse, rest)
  else if c = '\\' then
    match rest with
    | [] => none
    | e :: rest2 =>
      if e = '"' then parseStringBody fuel ('"' :: acc) rest2
      else if e = '\\' then parseStringBody fuel ('\\' :: acc) rest2
      else if e = '/' then parseStringBody fuel ('/' :: acc) rest2
      else if e = 'b' then parseStringBody fuel ('\x08' :: acc) rest2
      else if e = 'f' then parseStringBody fuel ('\x0C' :: acc) rest2
      else if e = 'n' then parseStringBody fuel ('\n' :: acc) rest2
      else if e = 'r' then parseStringBody fuel ('\r' :: acc) rest2
      else if e = 't' then parseStringBody fuel ('\t' :: acc) rest2
      else if e = 'u' then
        match parseHex4 rest2 with
        | none => none
        | some (n, rest3) =>
          if 0xD800 ≤ n ∧ n ≤ 0xDBFF then
            match rest3 with
            | '\\' :: 'u' :: rest4 =>
              match parseHex4 rest4 with
              | some (m, rest5) =>
                if 0xDC00 ≤ m ∧ m ≤ 0xDFFF then
                  parseStringBody fuel
                    (Char.ofNat (0x10000 + (n - 0xD800) * 1024 + (m - 0xDC00)) :: acc) rest5
                else none
              | none => none
            | _ => none
          else if 0xDC00 ≤ n ∧ n ≤ 0xDFFF then none
          else parseStringBody fuel (Char.ofNat n :: acc) rest3
      else none
  else if c.toNat < 32 then none
  else parseStringBody fuel (c :: acc) rest

/-- Longest leading run of decimal digits. -/
def spanDigits : List Char → List Char × List Char
| c :: rest =>
  if c.isDigit then
    let (ds, r) := spanDigits rest
    (c :: ds, r)
  else ([], c :: rest)
| [] => ([], [])

/-- Integer part of a JSON number: a single 0, or a nonzero digit followed
by digits. -/
def parseIntPart : List Char → Option (List Char × List Char)
| '0' :: rest => some (['0'], rest)
| c :: rest =>
  if c.isDigit then
    let (ds, r) := spanDigits rest
    some (c :: ds, r)
  else none
| [] => none

/-- Optional fraction part of a JSON number. -/
def parseFracPart : List Char → Option (List Char × List Char)
| '.' :: rest =>
  match spanDigits rest with
  | ([], _) => none
  | (ds, r) => some ('.' :: ds, r)
| input => some ([], input)

/-- Optional exponent part of a JSON number. -/
def parseExpPart : List Char → Option (List Char × List Char)
| c :: rest =>
  if c = 'e' ∨ c = 'E' then
    match rest with
    | s :: rest2 =>
      if s = '+' ∨ s = '-' then
        match spanDigits rest2 with
        | ([], _) => none
        | (ds, r) => some (c :: s :: ds, r)
      else
        match spanDigits (s :: rest2) with
        | ([], _) => none
        | (ds, r) => some (c :: ds, r)
    | [] => none
  else some ([], c :: rest)
| [] => some ([], [])

/-- A JSON number lexeme: optional minus, integer part, optional fraction,
optional exponent. -/
def parseNumberLexeme : List Char → Option (String × List Char)
| '-' :: rest => do
  let (ip, r1) ← parseIntPart rest
  let (fp, r2) ← parseFracPart r1
  let (ep, r3) ← parseExpPart r2
  some (String.mk ('-' :: (ip ++ fp ++ ep)), r3)
| input => do
  let (ip, r1) ← parseIntPart input
  let (fp, r2) ← parseFracPart r1
  let (ep, r3) ← parseExpPart r2
  some (String.mk (ip ++ fp ++ ep), r3)

mutual

/-- Parse one JSON value, fuel-bounded recursive descent. -/
def parseValue (fuel : Nat) (input : List Char) : Option (Json × List Char) :=
match fuel, skipWs input with
| 0, _ => none
| _ + 1, 'n' :: 'u' :: 'l' :: 'l' :: rest => some (Json.null, rest)
| _ + 1, 't' :: 'r' :: 'u' :: 'e' :: rest => some (Json.bool true, rest)
| _ + 1, 'f' :: 'a' :: 'l' :: 's' :: 'e' :: rest => some (Json.bool false, rest)
| _ + 1, '"' :: rest =>
  match parseStringBody (rest.length + 1) [] rest with
  | some (s, r) => some (Json.str s, r)
  | none => none
| fuel + 1, '[' :: rest =>
  (match skipWs rest with
   | ']' :: rest2 => some (Json.arr [], rest2)
   | _ => parseArrayTail fuel [] rest)
| fuel + 1, '\x7b' :: rest =>
  (match skipWs rest with
   | '\x7d' :: rest2 => some (Json.obj [], rest2)
   | _ => parseObjectTail fuel [] rest)
| _ + 1, c :: rest =>
  if c = '-' ∨ c.isDigit then
    match parseNumberLexeme (c :: rest) with
    | some (lex, r) => some (Json.num lex, r)
    | none => none
  else none
| _ + 1, [] => none

/-- Items of a JSON array after the opening bracket or a comma. -/
def parseArrayTail (fuel : Nat) (acc : List Json) (input : List Char) :
    Option (Json × List Char) :=
match fuel with
| 0 => none
| fuel + 1 =>
  match parseValue fuel input with
  | none => none
  | some (v, rest) =>
    match skipWs rest with
    | ',' :: rest2 => parseArrayTail fuel (v :: acc) rest2
    | ']' :: rest2 => some (Json.arr (v :: acc).reverse, rest2)
    | _ => none

/-- Members of a JSON object after the opening brace or a comma. -/
def parseObjectTail (fuel : Nat) (acc : List (String × Json)) (input : List Char) :
    Option (Json × List Char) :=
match fuel with
| 0 => none
| fuel + 1 =>
  match skipWs input with
  | '"' :: rest =>
    (match parseStringBody (rest.length + 1) [] rest with
     | none => none
     | some (key, rest2) =>
       match skipWs rest2 with
       | ':' :: rest3 =>
         (match parseValue fuel rest3 with
          | none => none
          | some (v, rest4) =>
            match skipWs rest4 with
            | ',' :: rest5 => parseObjectTail fuel ((key, v) :: acc) rest5
            | '\x7d' :: rest5 => some (Json.obj ((key, v) :: acc).reverse, rest5)
            | _ => none)
       | _ => none)
  | _ => none

end

/-- Parse a whole string as one JSON document, as serde_json::from_str
does: one value, optionally surrounded by whitespace, nothing after it. -/
def parseJsonString (s : String) : Option Json :=
match parseValue (2 * s.data.length + 2) s.data with
| some (j, rest) => if (skipWs rest).isEmpty then some j else none
| none => none

/-- The Evaluation struct of main.rs: the one boolean field of the
model verdict, derived serde::Deserialize. -/
structure Evaluation where
violates_rules : Bool

/-- Field loop of the derived Deserialize impl for Evaluation: the
violates_rules field must appear exactly once with a boolean value, is an
error when missing or duplicated, and fields with other keys are ignored
(serde's default, since the struct has no deny_unknown_fields attribute). -/
def evaluationFromFields : List (String × Json) → Option Bool → Except String Evaluation
| [], none => Except.error "missing field violates_rules"
| [], some b => Except.ok ⟨b⟩
| (k, v) :: rest, acc =>
  if k = "violates_rules" then
    match acc with
    | some _ => Except.error "duplicate field violates_rules"
    | none =>
      match v with
      | Json.bool b => evaluationFromFields rest (some b)
      | _ => Except.error "invalid type for violates_rules"
  else evaluationFromFields rest acc

/-- serde_json::from_str::<Evaluation>: the input must be one JSON object
carrying a boolean violates_rules member; unknown members are ignored. -/
def evaluationFromStr (s : String) : Except String Evaluation :=
match parseJsonString s with
| none => Except.error "invalid json"
| some (Json.obj fields) => evaluationFromFields fields none
| some _ => Except.error "invalid type, expected struct Evaluation"

/-- The two chat roles used by the program. -/
inductive TextMessageRole where
| system : TextMessageRole
| user : TextMessageRole

/-- The chat request assembled by the RequestBuilder calls in
evaluate_message: sampler temperature, sampler max length, the optional
JSON-schema constraint, and the ordered role-tagged messages. -/
structure ChatRequest where
temperature : Option Float
max_len : Option Nat
constraint : Option Json
messages : List (TextMessageRole × String)

/-- The system prompt string literal of evaluate_message.  Rust line
continuations (backslash before the newline) splice the segments with no
intervening whitespace. -/
def SYSTEM_PROMPT : String :=
"You are a moderator for a Discord community.In this community users aren\x27t allowed send messages containing job posts.Users can\x27t list their skills to attract recruiters.You will be provided messages to evaluate whether user breaks these rules and you will respond true if it breaks rules, false if it doesn\x27t.Don\x27t try to make indirect connections to rules."

/-- The json! literal passed to Constraint::JsonSchema in
evaluate_message. -/
def evaluationSchema : Json :=
Json.obj
  [("type", Json.str "object"),
   ("properties", Json.obj [("violates_rules", Json.obj [("type", Json.str "boolean")])]),
   ("required", Json.arr [Json.str "violates_rules"]),
   ("additionalProperties", Json.bool false)]

/-- The request evaluate_message builds for a given message content:
temperature 0, max length 100, the schema constraint, the system prompt,
then the user content.  It is a pure function of the content alone and is
rebuilt on every call. -/
def buildRequest (content : String) : ChatRequest :=
{ temperature := some 0.0
  max_len := some 100
  constraint := some evaluationSchema
  messages := [(TextMessageRole.system, SYSTEM_PROMPT), (TextMessageRole.user, content)] }

/-- The message inside one response choice; its content is optional. -/
structure ResponseMessage where
content : Option String

/-- One choice of the chat response. -/
structure Choice where
message : ResponseMessage

/-- The chat response: a list of choices. -/
structure ChatResponse where
choices : List Choice

/-- The log entries the program can emit through the tracing macros,
one constructor per call site. -/
inductive LogEntry where
| failedRunLlm (err : String) : LogEntry
| zeroChoices : LogEntry
| choiceWithoutContent : LogEntry
| parseFailed (content : String) (err : String) : LogEntry
| receivedMessageEvent : LogEntry
| noGuildId : LogEntry
| likelyBot : LogEntry
| failedReport (err : String) : LogEntry

/-- Severity levels of the tracing macros. -/
inductive LogLevel where
| error : LogLevel
| warn : LogLevel
| info : LogLevel

/-- The level each log call site uses. -/
def LogEntry.level : LogEntry → LogLevel
| .failedRunLlm _ => LogLevel.error
| .zeroChoices => LogLevel.error
| .choiceWithoutContent => LogLevel.error
| .parseFailed _ _ => LogLevel.error
| .receivedMessageEvent => LogLevel.info
| .noGuildId => LogLevel.warn
| .likelyBot => LogLevel.info
| .failedReport _ => LogLevel.error

/-- What one call of evaluate_message produces: the boolean verdict, the
log entries emitted, and the chat requests sent to the model. -/
structure EvalEffects where
result : Bool
logs : List LogEntry
requests : List ChatRequest

/-- evaluate_message of main.rs.  The model runtime is an oracle mapping
the built request to an error or a response.  Every branch returns (the
Rust function is total): call failure, an empty choice list, a choice
without content, and unparseable content all yield false with an error
log; otherwise the verdict is the parsed violates_rules field. -/
def evaluate_message (model : ChatRequest → Except String ChatResponse)
    (content : String) : EvalEffects :=
let request := buildRequest content
match model request with
| Except.error err => ⟨false, [LogEntry.failedRunLlm err], [request]⟩
| Except.ok response =>
  match response.choices.head? with
  | none => ⟨false, [LogEntry.zeroChoices], [request]⟩
  | some choice =>
    match choice.message.content with
    | none => ⟨false, [LogEntry.choiceWithoutContent], [request]⟩
    | some response_content =>
      match evaluationFromStr response_content with
      | Except.error err => ⟨false, [LogEntry.parseFailed content err], [request]⟩
      | Except.ok evaluation => ⟨evaluation.violates_rules, [], [request]⟩

/-- The SELF_ID constant of main.rs, the id of the bot account itself. -/
def SELF_ID : Nat := 1314997214866571284

/-- The inbound Discord message fields the handler reads: the optional
guild id, the content, whether the author is a bot, the author id, and the
permalink Message::link renders. -/
structure Msg where
guild_id : Option Nat
content : String
author_bot : Bool
author_id : Nat
link : String

/-- The static guild-to-report-channel match expression of
Handler::message: Sam's bot testing server and progdisc; every other guild
id has no mapping. -/
def channelMapping (guild_id : Nat) : Option Nat :=
if guild_id = 145457131640848384 then some 335451227028717568
else if guild_id = 238666723824238602 then some 1315930244682743839
else none

/-- The summary built for the report: the first 512 grapheme clusters of
the message content, concatenated back into a string.  The segmentation
itself is the unicode_segmentation library, passed in as a function. -/
def content_summary (graphemes : String → List String) (content : String) : String :=
String.join ((graphemes content).take 512)

/-- The embed the handler sends: a title, ordered named fields each with an
inline flag, and a footer. -/
structure Embed where
title : String
fields : List (String × String × Bool)
footer : String

/-- The report embed of Handler::message: the summary field, the message
link field, the timing footer, and the fixed title. -/
def reportEmbed (summary link elapsed : String) : Embed :=
{ title := "found violating message"
  fields := [("summary", summary, false), ("message link", link, false)]
  footer := "took " ++ elapsed ++ " seconds" }

/-- What one invocation of the message handler produces: the log entries,
the chat requests sent to the model, and the send attempts made on the
gateway (channel id and embed), in order. -/
structure HandlerEffects where
logs : List LogEntry
modelRequests : List ChatRequest
sends : List (Nat × Embed)

/-- Handler::message of main.rs.  The model runtime, the grapheme
segmentation and the gateway send are oracles; elapsed is the already
formatted wall-clock duration of the classification call (the embedding
carries no real clock).  Filters in source order: missing guild id, then
empty content or bot author or self author, then the static channel
mapping; only then is the classifier called, and a report embed is sent
exactly when it returns true.  A failed send is logged and nothing else is
done; every branch returns. -/
def Handler.message (model : ChatRequest → Except String ChatResponse)
    (graphemes : String → List String) (elapsed : String)
    (send : Nat → Embed → Except String Unit) (msg : Msg) : HandlerEffects :=
match msg.guild_id with
| none => ⟨[LogEntry.receivedMessageEvent, LogEntry.noGuildId], [], []⟩
| some guild_id =>
  if msg.content == "" || msg.author_bot || msg.author_id == SELF_ID then
    ⟨[LogEntry.receivedMessageEvent, LogEntry.likelyBot], [], []⟩
  else
    match channelMapping guild_id with
    | none => ⟨[LogEntry.receivedMessageEvent], [], []⟩
    | some report_channel_id =>
      let ev := evaluate_message model msg.content
      if ev.result then
        let embed := reportEmbed (content_summary graphemes msg.content) msg.link elapsed
        match send report_channel_id embed with
        | Except.ok _ =>
          ⟨LogEntry.receivedMessageEvent :: ev.logs, ev.requests, [(report_channel_id, embed)]⟩
        | Except.error err =>
          ⟨LogEntry.receivedMessageEvent :: (ev.logs ++ [LogEntry.failedReport err]),
           ev.requests, [(report_channel_id, embed)]⟩
      else ⟨LogEntry.receivedMessageEvent :: ev.logs, ev.requests, []⟩

/-- One record of messages.json as read by run_tests. -/
structure TestCase where
content : String
expected_result : Bool

/-- What run_tests produces: the recorded per-call times, the misprediction
count, the printed average time, the number of classifier calls made, and
whether the final assert_eq on zero mispredictions succeeds. -/
structure RunTestsOutcome where
times : List Float
mispredictions : Nat
average_time : Float
requests : List ChatRequest
passed : Bool

/-- The for loop of run_tests: one evaluate_message call per case, pushing
that call's measured wall time (supplied here by the latency oracle,
indexed by call number) and bumping the misprediction count when the
verdict differs from the expected result. -/
def runTestsLoop (model : ChatRequest → Except String ChatResponse)
    (latency : Nat → Float) :
    List TestCase → Nat → List Float → Nat → List ChatRequest →
    List Float × Nat × List ChatRequest
| [], _, times, mis, reqs => (times, mis, reqs)
| c :: rest, i, times, mis, reqs =>
  let ev := evaluate_message model c.content
  runTestsLoop model latency rest (i + 1) (times ++ [latency i])
    (if c.expected_result != ev.result then mis + 1 else mis) (reqs ++ ev.requests)

/-- run_tests of main.rs, with the model and the per-call wall times as
oracles: runs the loop over the cases, prints the average time (sum of the
recorded times over their count) and passes exactly when the assert_eq
finds zero mispredictions. -/
def run_tests (model : ChatRequest → Except String ChatResponse)
    (latency : Nat → Float) (cases : List TestCase) : RunTestsOutcome :=
let r := runTestsLoop model latency cases 0 [] 0 []
{ times := r.1
  mispredictions := r.2.1
  average_time := (r.1.foldl (fun a b => a + b) 0) / Float.ofNat r.1.length
  requests := r.2.2
  passed := r.2.1 == 0 }

/-- Field lookup in a JSON object, first occurrence. -/
def jsonObjGet (j : Json) (key : String) : Option Json :=
match j with
| Json.obj fields => (fields.find? (fun f => f.1 == key)).map (fun f => f.2)
| _ => none

/-- Modelled from the spec: the spec requires the response content "to
conform exactly to \x7b\"violates_rules\": bool\x7d with no additional
properties".  Following those words, the content must parse as a JSON
object whose only member is a boolean violates_rules.  Stated separately
from evaluationFromStr (the code's deserializer) so the two can be
compared. -/
def matchesSchemaExactly (s : String) : Bool :=
match parseJsonString s with
| some (Json.obj [(k, Json.bool _)]) => k == "violates_rules"
| _ => false

/-- A response content carrying the required boolean member and one
additional member. -/
def extraPropContent : String :=
"\x7b\"violates_rules\":true,\"extra\":true\x7d"

/-- Every call of evaluate_message sends exactly one chat request, the one
buildRequest assembles from the message content. -/
theorem evaluate_message_requests (model : ChatRequest → Except String ChatResponse)
    (content : String) :
    (evaluate_message model content).requests = [buildRequest content] := by
  simp only [evaluate_message]
  split
  · rfl
  · split
    · rfl
    · split
      · rfl
      · split <;> rfl

/-- C7: for every input content, the request built by evaluate_message has
temperature fixed at zero, output capped at 100 tokens, the JSON-schema
constraint requiring an object with the required boolean violates_rules
and no additional properties, the fixed system prompt first and the user
content second; buildRequest is a pure function of the content alone, so
the request is rebuilt identically on every call. -/
theorem buildRequest_fixed (content : String) :
    (buildRequest content).temperature = some 0.0 ∧
    (buildRequest content).max_len = some 100 ∧
    (buildRequest content).constraint = some evaluationSchema ∧
    jsonObjGet evaluationSchema "additionalProperties" = some (Json.bool false) ∧
    jsonObjGet evaluationSchema "required" = some (Json.arr [Json.str "violates_rules"]) ∧
    (∃ props, jsonObjGet evaluationSchema "properties" = some (Json.obj props) ∧
      jsonObjGet (Json.obj props) "violates_rules" =
        some (Json.obj [("type", Json.str "boolean")])) ∧
    (buildRequest content).messages =
      [(TextMessageRole.system, SYSTEM_PROMPT), (TextMessageRole.user, content)] :=
  ⟨rfl, rfl, rfl, rfl, rfl, ⟨_, rfl, rfl⟩, rfl⟩

/-- C9: evaluate_message reads only the first choice of the response: two
responses with the same first choice, whatever the later choices, give
identical results, logs and requests. -/
theorem evaluate_message_first_choice_only (content : String) (r₁ r₂ : ChatResponse)
    (h : r₁.choices.head? = r₂.choices.head?) :
    evaluate_message (fun _ => Except.ok r₁) content =
    evaluate_message (fun _ => Except.ok r₂) content := by
  simp only [evaluate_message]
  rw [h]

/-- C9 witness: a two-choice response and its one-choice truncation give
the same outcome. -/
theorem evaluate_message_first_choice_only_witness :
    evaluate_message
      (fun _ => Except.ok ⟨[⟨⟨some "x"⟩⟩, ⟨⟨none⟩⟩]⟩) "m" =
    evaluate_message (fun _ => Except.ok ⟨[⟨⟨some "x"⟩⟩]⟩) "m" :=
  evaluate_message_first_choice_only "m" ⟨[⟨⟨some "x"⟩⟩, ⟨⟨none⟩⟩]⟩ ⟨[⟨⟨some "x"⟩⟩]⟩ rfl

/-- C5 counterexample: a response content with an additional property
besides violates_rules does not conform exactly to the schema, yet
evaluate_message returns true on it — the derived deserializer ignores
unknown fields, so the claim's only-if condition is refuted. -/
theorem evaluate_true_despite_extra_property :
    (evaluate_message
      (fun _ => Except.ok ⟨[⟨⟨some extraPropContent⟩⟩]⟩) "hello").result = true ∧
    matchesSchemaExactly extraPropContent = false :=
  ⟨rfl, rfl⟩

/-- C1: every abnormal outcome of the model interaction — the call returns
an error, the choice list is empty, the first choice has no content, or
the content does not deserialize — makes evaluate_message return false and
log an error-level entry.  The function is total, so no path raises, and
its effects carry no send: it never reports. -/
theorem evaluate_message_abnormal_false (model : ChatRequest → Except String ChatResponse)
    (content : String)
    (h : (∃ e, model (buildRequest content) = Except.error e) ∨
         (∃ r, model (buildRequest content) = Except.ok r ∧ r.choices = []) ∨
         (∃ r c, model (buildRequest content) = Except.ok r ∧
            r.choices.head? = some c ∧ c.message.content = none) ∨
         (∃ r c s e, model (buildRequest content) = Except.ok r ∧
            r.choices.head? = some c ∧ c.message.content = some s ∧
            evaluationFromStr s = Except.error e)) :
    (evaluate_message model content).result = false ∧
    ∃ l ∈ (evaluate_message model content).logs, l.level = LogLevel.error := by
  rcases h with ⟨e, he⟩ | ⟨r, hr, hc⟩ | ⟨r, c, hr, hc, hm⟩ | ⟨r, c, s, e, hr, hc, hm, hp⟩
  · simp only [evaluate_message, he]
    exact ⟨by simp, LogEntry.failedRunLlm e, List.mem_singleton.mpr rfl, rfl⟩
  · simp only [evaluate_message, hr, hc, List.head?_nil]
    exact ⟨by simp, LogEntry.zeroChoices, List.mem_singleton.mpr rfl, rfl⟩
  · simp only [evaluate_message, hr, hc, hm]
    exact ⟨by simp, LogEntry.choiceWithoutContent, List.mem_singleton.mpr rfl, rfl⟩
  · simp only [evaluate_message, hr, hc, hm, hp]
    exact ⟨by simp, LogEntry.parseFailed content e, List.mem_singleton.mpr rfl, rfl⟩

/-- C1 witness: a failing model call on a concrete content. -/
theorem evaluate_message_abnormal_false_witness :
    (evaluate_message (fun _ => Except.error "connection refused") "hi").result = false ∧
    ∃ l ∈ (evaluate_message (fun _ => Except.error "connection refused") "hi").logs,
      l.level = LogLevel.error :=
  evaluate_message_abnormal_false (fun _ => Except.error "connection refused") "hi"
    (Or.inl ⟨"connection refused", rfl⟩)

/-- C5 as amended: evaluate_message returns true only if the model call
succeeded, the response had at least one choice, the first choice carried
content, that content is non-empty and deserializes as a JSON object with
a boolean violates_rules member equal to true.  (The deserializer ignores
additional properties, so exact schema conformance is not required.) -/
theorem evaluate_true_only_if_parsed_true (model : ChatRequest → Except String ChatResponse)
    (content : String)
    (h : (evaluate_message model content).result = true) :
    ∃ r choice s ev,
      model (buildRequest content) = Except.ok r ∧
      r.choices.head? = some choice ∧
      choice.message.content = some s ∧
      s ≠ "" ∧
      evaluationFromStr s = Except.ok ev ∧
      ev.violates_rules = true := by
  revert h
  simp only [evaluate_message]
  rcases hm : model (buildRequest content) with e | r
  · dsimp only
    intro h; cases h
  · dsimp only
    rcases hh : r.choices.head? with _ | choice
    · dsimp only
      intro h; cases h
    · dsimp only
      rcases hc : choice.message.content with _ | s
      · dsimp only
        intro h; cases h
      · dsimp only
        rcases hp : evaluationFromStr s with e | ev
        · dsimp only
          intro h; cases h
        · dsimp only
          intro h
          refine ⟨r, choice, s, ev, rfl, hh, hc, ?_, hp, h⟩
          intro hs
          rw [hs] at hp
          rw [show evaluationFromStr "" = Except.error "invalid json" from rfl] at hp
          exact Except.noConfusion hp

/-- C5 witness: a well-formed positive verdict on a concrete response. -/
theorem evaluate_true_only_if_parsed_true_witness :
    ∃ r choice s ev,
      (Except.ok (⟨[⟨⟨some "\x7b\"violates_rules\":true\x7d"⟩⟩]⟩ : ChatResponse) :
          Except String ChatResponse) = Except.ok r ∧
      r.choices.head? = some choice ∧
      choice.message.content = some s ∧
      s ≠ "" ∧
      evaluationFromStr s = Except.ok ev ∧
      ev.violates_rules = true :=
  evaluate_true_only_if_parsed_true
    (fun _ => Except.ok ⟨[⟨⟨some "\x7b\"violates_rules\":true\x7d"⟩⟩]⟩) "m" rfl

/-- Concatenating string lists commutes with String.join. -/
theorem string_join_append (a b : List String) :
    String.join (a ++ b) = String.join a ++ String.join b := by
  rw [String.join_eq, String.join_eq, String.join_eq]
  show String.mk _ = String.mk _ ++ String.mk _
  rw [List.map_append, List.flatten_append]
  rfl

/-- C4: when the segmentation function splits the content into clusters
whose concatenation is the content (the contract of the
unicode_segmentation crate), the report summary keeps at most the first
512 clusters, each kept cluster whole, and what it drops is exactly the
concatenation of the remaining clusters — so the summary is a prefix of
the content on cluster boundaries and never splits a cluster. -/
theorem content_summary_cluster_boundary (graphemes : String → List String)
    (content : String)
    (h : String.join (graphemes content) = content) :
    ((graphemes content).take 512).length ≤ 512 ∧
    content_summary graphemes content = String.join ((graphemes content).take 512) ∧
    content_summary graphemes content ++ String.join ((graphemes content).drop 512) =
      content := by
  refine ⟨List.length_take_le _ _, rfl, ?_⟩
  rw [content_summary, ← string_join_append, List.take_append_drop, h]

/-- C4 witness: a concrete segmentation of a concrete content. -/
theorem content_summary_cluster_boundary_witness :
    (((fun _ => ["ab", "cd"]) "abcd").take 512).length ≤ 512 ∧
    content_summary (fun _ => ["ab", "cd"]) "abcd" =
      String.join ((((fun _ => ["ab", "cd"]) : String → List String) "abcd").take 512) ∧
    content_summary (fun _ => ["ab", "cd"]) "abcd" ++
      String.join ((((fun _ => ["ab", "cd"]) : String → List String) "abcd").drop 512) =
      "abcd" :=
  content_summary_cluster_boundary (fun _ => ["ab", "cd"]) "abcd" (by decide)

/-- C2: an event with no guild id, or empty content, or a bot author, or
the self author, or a guild absent from the channel mapping, is discarded
with no model call and no send. -/
theorem handler_filters_no_model_call (model : ChatRequest → Except String ChatResponse)
    (graphemes : String → List String) (elapsed : String)
    (send : Nat → Embed → Except String Unit) (msg : Msg)
    (h : msg.guild_id = none ∨ msg.content = "" ∨ msg.author_bot = true ∨
         msg.author_id = SELF_ID ∨
         (∃ g, msg.guild_id = some g ∧ channelMapping g = none)) :
    (Handler.message model graphemes elapsed send msg).modelRequests = [] ∧
    (Handler.message model graphemes elapsed send msg).sends = [] := by
  rcases h with hg | hc | hb | hid | ⟨g, hg, hmap⟩
  · simp [Handler.message, hg]
  · cases hgid : msg.guild_id with
    | none => simp [Handler.message, hgid]
    | some g => simp [Handler.message, hgid, hc]
  · cases hgid : msg.guild_id with
    | none => simp [Handler.message, hgid]
    | some g => simp [Handler.message, hgid, hb]
  · cases hgid : msg.guild_id with
    | none => simp [Handler.message, hgid]
    | some g => simp [Handler.message, hgid, hid]
  · simp only [Handler.message, hg]
    split
    · exact ⟨rfl, rfl⟩
    · rw [hmap]
      exact ⟨rfl, rfl⟩

/-- C2 witness: a direct message (no guild id) is discarded. -/
theorem handler_filters_no_model_call_witness :
    (Handler.message (fun _ => Except.error "e") (fun _ => []) "0.00"
      (fun _ _ => Except.ok ()) ⟨none, "hi", false, 7, "url"⟩).modelRequests = [] ∧
    (Handler.message (fun _ => Except.error "e") (fun _ => []) "0.00"
      (fun _ _ => Except.ok ()) ⟨none, "hi", false, 7, "url"⟩).sends = [] :=
  handler_filters_no_model_call (fun _ => Except.error "e") (fun _ => []) "0.00"
    (fun _ _ => Except.ok ()) ⟨none, "hi", false, 7, "url"⟩ (Or.inl rfl)

/-- C3: an event passing every filter sends a report exactly when the
classifier verdict is true, and the report goes to the mapped channel with
the truncated content as the summary field, the permalink as the message
link field, the timing footer, and the fixed title. -/
theorem handler_reports_iff_classifier_true (model : ChatRequest → Except String ChatResponse)
    (graphemes : String → List String) (elapsed : String)
    (send : Nat → Embed → Except String Unit) (msg : Msg) (g ch : Nat)
    (hg : msg.guild_id = some g) (hc : msg.content ≠ "")
    (hb : msg.author_bot = false) (hid : msg.author_id ≠ SELF_ID)
    (hm : channelMapping g = some ch) :
    ((Handler.message model graphemes elapsed send msg).sends ≠ [] ↔
      (evaluate_message model msg.content).result = true) ∧
    ((evaluate_message model msg.content).result = true →
      (Handler.message model graphemes elapsed send msg).sends =
        [(ch, { title := "found violating message",
                fields := [("summary", content_summary graphemes msg.content, false),
                           ("message link", msg.link, false)],
                footer := "took " ++ elapsed ++ " seconds" })]) := by
  simp only [Handler.message, hg]
  rw [if_neg (by simp [hc, hb, hid]), hm]
  dsimp only
  cases hres : (evaluate_message model msg.content).result with
  | false =>
    rw [if_neg (show ¬((false : Bool) = true) by simp)]
    simp
  | true =>
    rw [if_pos (show (true : Bool) = true from rfl)]
    cases send ch (reportEmbed (content_summary graphemes msg.content) msg.link elapsed) with
    | ok u => exact ⟨by simp, fun _ => rfl⟩
    | error e => exact ⟨by simp, fun _ => rfl⟩

/-- C3 witness: a mapped guild, a clean author, a positive verdict, and
the report that results. -/
theorem handler_reports_iff_classifier_true_witness :
    ((Handler.message
        (fun _ => Except.ok ⟨[⟨⟨some "\x7b\"violates_rules\": true\x7d"⟩⟩]⟩)
        (fun s => [s]) "1.23" (fun _ _ => Except.ok ())
        ⟨some 238666723824238602, "dm me your resume", false, 7, "url"⟩).sends ≠ [] ↔
      (evaluate_message
        (fun _ => Except.ok ⟨[⟨⟨some "\x7b\"violates_rules\": true\x7d"⟩⟩]⟩)
        "dm me your resume").result = true) ∧
    ((evaluate_message
        (fun _ => Except.ok ⟨[⟨⟨some "\x7b\"violates_rules\": true\x7d"⟩⟩]⟩)
        "dm me your resume").result = true →
      (Handler.message
        (fun _ => Except.ok ⟨[⟨⟨some "\x7b\"violates_rules\": true\x7d"⟩⟩]⟩)
        (fun s => [s]) "1.23" (fun _ _ => Except.ok ())
        ⟨some 238666723824238602, "dm me your resume", false, 7, "url"⟩).sends =
        [(1315930244682743839,
          { title := "found violating message",
            fields := [("summary",
                        content_summary (fun s => [s]) "dm me your resume", false),
                       ("message link", "url", false)],
            footer := "took " ++ "1.23" ++ " seconds" })]) :=
  handler_reports_iff_classifier_true
    (fun _ => Except.ok ⟨[⟨⟨some "\x7b\"violates_rules\": true\x7d"⟩⟩]⟩)
    (fun s => [s]) "1.23" (fun _ _ => Except.ok ())
    ⟨some 238666723824238602, "dm me your resume", false, 7, "url"⟩
    238666723824238602 1315930244682743839 rfl (by decide) rfl (by decide) rfl

/-- C10: the empty-content filter is an exact equality test against the
empty string, so a message whose content is whitespace only (hence not
empty) and that passes the guild, bot, self and mapping filters does reach
the classifier: exactly one model call is made. -/
theorem handler_whitespace_content_calls_model
    (model : ChatRequest → Except String ChatResponse)
    (graphemes : String → List String) (elapsed : String)
    (send : Nat → Embed → Except String Unit) (msg : Msg) (g ch : Nat)
    (hg : msg.guild_id = some g) (hm : channelMapping g = some ch)
    (hb : msg.author_bot = false) (hid : msg.author_id ≠ SELF_ID)
    (hne : msg.content ≠ "")
    (_hws : ∀ c ∈ msg.content.data, c = ' ' ∨ c = '\t' ∨ c = '\n' ∨ c = '\r') :
    (Handler.message model graphemes elapsed send msg).modelRequests =
      [buildRequest msg.content] := by
  simp only [Handler.message, hg]
  rw [if_neg (by simp [hne, hb, hid]), hm]
  dsimp only
  cases hres : (evaluate_message model msg.content).result with
  | false =>
    rw [if_neg (show ¬((false : Bool) = true) by simp)]
    exact evaluate_message_requests model msg.content
  | true =>
    rw [if_pos (show (true : Bool) = true from rfl)]
    cases send ch (reportEmbed (content_summary graphemes msg.content) msg.link elapsed) with
    | ok u => exact evaluate_message_requests model msg.content
    | error e => exact evaluate_message_requests model msg.content

/-- C10 witness: a single-space message in a mapped guild triggers the
model call. -/
theorem handler_whitespace_content_calls_model_witness :
    (Handler.message (fun _ => Except.error "e") (fun s => [s]) "0.50"
      (fun _ _ => Except.ok ())
      ⟨some 238666723824238602, " ", false, 7, "url"⟩).modelRequests =
      [buildRequest " "] :=
  handler_whitespace_content_calls_model (fun _ => Except.error "e") (fun s => [s])
    "0.50" (fun _ _ => Except.ok ())
    ⟨some 238666723824238602, " ", false, 7, "url"⟩ 238666723824238602
    1315930244682743839 rfl rfl rfl (by decide) (by decide) (by decide)

/-- C6: a failing send changes nothing about how the event is handled
except that the failure is logged: compared with a run whose send
succeeds, the same single send attempt (never more than one, so no retry
and no re-queue) and the same model calls happen, and the log gains
exactly one error entry when a send was attempted.  Both runs return
normally, so the failure never propagates. -/
theorem handler_send_failure_contained (model : ChatRequest → Except String ChatResponse)
    (graphemes : String → List String) (elapsed : String) (msg : Msg) (e : String) :
    (Handler.message model graphemes elapsed (fun _ _ => Except.error e) msg).sends =
      (Handler.message model graphemes elapsed (fun _ _ => Except.ok ()) msg).sends ∧
    (Handler.message model graphemes elapsed (fun _ _ => Except.error e) msg).modelRequests =
      (Handler.message model graphemes elapsed (fun _ _ => Except.ok ()) msg).modelRequests ∧
    (Handler.message model graphemes elapsed (fun _ _ => Except.error e) msg).sends.length ≤ 1 ∧
    (Handler.message model graphemes elapsed (fun _ _ => Except.error e) msg).logs =
      (Handler.message model graphemes elapsed (fun _ _ => Except.ok ()) msg).logs ++
      (if (Handler.message model graphemes elapsed
            (fun _ _ => Except.error e) msg).sends.isEmpty
       then [] else [LogEntry.failedReport e]) := by
  simp only [Handler.message]
  cases msg.guild_id with
  | none => simp
  | some g =>
    try dsimp only
    cases (msg.content == "" || msg.author_bot || msg.author_id == SELF_ID) with
    | true => simp
    | false =>
      try dsimp only
      cases channelMapping g with
      | none => simp
      | some ch =>
        try dsimp only
        cases (evaluate_message model msg.content).result with
        | false => simp
        | true => simp

/-- The for loop of run_tests, characterised: starting from any
accumulators, it adds one misprediction per case whose verdict differs
from the expectation, one chat request per case, and one recorded time per
case. -/
theorem runTestsLoop_spec (model : ChatRequest → Except String ChatResponse)
    (latency : Nat → Float) :
    ∀ (cases : List TestCase) (i : Nat) (times : List Float) (mis : Nat)
      (reqs : List ChatRequest),
      (runTestsLoop model latency cases i times mis reqs).2.1 =
        mis + cases.countP
          (fun c => c.expected_result != (evaluate_message model c.content).result) ∧
      (runTestsLoop model latency cases i times mis reqs).2.2.length =
        reqs.length + cases.length ∧
      (runTestsLoop model latency cases i times mis reqs).1.length =
        times.length + cases.length := by
  intro cases
  induction cases with
  | nil => intro i times mis reqs; simp [runTestsLoop]
  | cons c rest ih =>
    intro i times mis reqs
    simp only [runTestsLoop]
    obtain ⟨h1, h2, h3⟩ := ih (i + 1) (times ++ [latency i])
      (if c.expected_result != (evaluate_message model c.content).result then mis + 1 else mis)
      (reqs ++ (evaluate_message model c.content).requests)
    refine ⟨?_, ?_, ?_⟩
    · rw [h1, List.countP_cons]
      by_cases hq : (c.expected_result != (evaluate_message model c.content).result) = true
      · simp [hq]
        omega
      · simp [hq]
    · rw [h2]
      simp [evaluate_message_requests]
      omega
    · rw [h3]
      simp
      omega

/-- C8: the offline harness makes one classifier call per record and
records one latency per record; it passes exactly when the misprediction
count — the number of records whose verdict differs from the expected
result — is zero; and the recorded latencies never affect whether it
passes (the average is only printed). -/
theorem run_tests_passes_iff_no_mispredictions
    (model : ChatRequest → Except String ChatResponse)
    (latency latency₂ : Nat → Float) (cases : List TestCase) :
    (run_tests model latency cases).requests.length = cases.length ∧
    (run_tests model latency cases).times.length = cases.length ∧
    (run_tests model latency cases).mispredictions =
      cases.countP
        (fun c => c.expected_result != (evaluate_message model c.content).result) ∧
    ((run_tests model latency cases).passed = true ↔
      (run_tests model latency cases).mispredictions = 0) ∧
    (run_tests model latency₂ cases).passed = (run_tests model latency cases).passed := by
  obtain ⟨h1, h2, h3⟩ := runTestsLoop_spec model latency cases 0 [] 0 []
  obtain ⟨h1', h2', h3'⟩ := runTestsLoop_spec model latency₂ cases 0 [] 0 []
  simp only [run_tests]
  refine ⟨?_, ?_, ?_, ?_, ?_⟩
  · rw [h2]; simp
  · rw [h3]; simp
  · rw [h1]; simp
  · simp [beq_iff_eq]
  · rw [show (runTestsLoop model latency₂ cases 0 [] 0 []).2.1 =
        (runTestsLoop model latency cases 0 [] 0 []).2.1 by rw [h1, h1']]

end LlmMod
